import Mathlib

/-!
Verification of the handlebars template-helper registry of engagementlab/el-hbs
(src/index.js).  Every helper is embedded as a pure Lean function over explicit
data; the mutation that `cloudinaryUrl` performs on its `options.hash` record is
made visible by returning the post-call hash alongside the result.  External
collaborators (the cloudinary URL builder, the random-number source) are passed
in as explicit parameters.  JavaScript string primitives used by the source
(`String.prototype.replace` with a string pattern, `indexOf`, `substring`,
`toLowerCase`, `toUpperCase`, `Array.prototype.join`) are modelled faithfully:
`replace` rewrites only the first occurrence, `join` renders `undefined`
elements as empty strings, and the case conversions act per ASCII character.
-/

namespace ElHbs

/-! ### JavaScript string primitives -/

/-- Model of JS `String.prototype.replace(pat, rep)` with a string pattern:
only the first occurrence of `pat` is replaced; if `pat` does not occur the
list is returned unchanged. -/
def replaceFirstL (pat rep : List Char) : List Char → List Char
  | [] => if pat.isPrefixOf ([] : List Char) then rep else []
  | c :: cs =>
    if pat.isPrefixOf (c :: cs) then rep ++ (c :: cs).drop pat.length
    else c :: replaceFirstL pat rep cs

/-- String-level version of `replaceFirstL`, matching `s.replace(pat, rep)`. -/
def replaceFirst (s pat rep : String) : String :=
  ⟨replaceFirstL pat.data rep.data s.data⟩

/-- Model of JS `s.indexOf(pat) !== -1`: does `pat` occur as a contiguous
sublist of `s`? -/
def containsSubL (pat : List Char) : List Char → Bool
  | [] => pat.isPrefixOf ([] : List Char)
  | c :: cs => pat.isPrefixOf (c :: cs) || containsSubL pat cs

/-- String-level version of `containsSubL`. -/
def containsSub (s pat : String) : Bool := containsSubL pat.data s.data

/-- Model of JS `String.prototype.substring(a, b)`: both indices are clamped
to `[0, s.length]` (negative values become `0`) and swapped when out of
order; the characters strictly between the two resulting indices are kept. -/
def jsSubstring (s : String) (a b : Int) : String :=
  let len := s.length
  let a2 := min a.toNat len
  let b2 := min b.toNat len
  ⟨(s.data.take (max a2 b2)).drop (min a2 b2)⟩

/-- Model of how JS `Array.prototype.join` renders an element: `undefined`
(and a missing field read) becomes the empty string. -/
def optStr : Option String → String
  | none => ""
  | some s => s

/-- JS truthiness of an optional string value: `undefined` and the empty
string are falsy, every other string is truthy. -/
def truthy : Option String → Bool
  | none => false
  | some s => if s = "" then false else true

/-! ### Basic lemmas about the primitives -/

lemma isPrefixOf_append_self : ∀ (pat l : List Char), pat.isPrefixOf (pat ++ l) = true := by
  intro pat
  induction pat with
  | nil => intro l; simp
  | cons p ps ih => intro l; simp [List.isPrefixOf, ih]

lemma replaceFirstL_at_head (pat rep l : List Char) :
    replaceFirstL pat rep (pat ++ l) = rep ++ l := by
  cases pat with
  | nil =>
    cases l with
    | nil => simp [replaceFirstL]
    | cons c cs => simp [replaceFirstL, List.isPrefixOf]
  | cons p ps =>
    have hp : (p :: ps).isPrefixOf ((p :: ps) ++ l) = true := isPrefixOf_append_self _ _
    show replaceFirstL (p :: ps) rep (p :: (ps ++ l)) = rep ++ l
    rw [replaceFirstL, if_pos]
    · simp [List.drop_left']
    · exact hp

lemma replaceFirstL_of_not_contains (pat rep : List Char) :
    ∀ l : List Char, containsSubL pat l = false → replaceFirstL pat rep l = l := by
  intro l
  induction l with
  | nil =>
    intro h
    simp only [containsSubL] at h
    simp [replaceFirstL, h]
  | cons c cs ih =>
    intro h
    simp only [containsSubL, Bool.or_eq_false_iff] at h
    simp [replaceFirstL, h.1, ih h.2]

/-! ### ASCII case-conversion lemmas (the model of JS `toLowerCase`) -/

lemma toLower_ofNat_mid (m : Nat) (h1 : 65 ≤ m) (h2 : m ≤ 90) :
    Char.toLower (Char.ofNat (m + 32)) = Char.ofNat (m + 32) := by
  interval_cases m <;> decide

lemma toLower_toLower (c : Char) : Char.toLower (Char.toLower c) = Char.toLower c := by
  by_cases h : 65 ≤ c.toNat ∧ c.toNat ≤ 90
  · have h1 : Char.toLower c = Char.ofNat (c.toNat + 32) := by
      unfold Char.toLower
      rw [if_pos ⟨h.1, h.2⟩]
    rw [h1]
    exact toLower_ofNat_mid c.toNat h.1 h.2
  · have h1 : Char.toLower c = c := by
      unfold Char.toLower
      rw [if_neg]
      intro hc
      exact h ⟨hc.1, hc.2⟩
    rw [h1, h1]

lemma toLower_ne_space (c : Char) (h : c ≠ ' ') : Char.toLower c ≠ ' ' := by
  by_cases hc : 65 ≤ c.toNat ∧ c.toNat ≤ 90
  · have h1 : Char.toLower c = Char.ofNat (c.toNat + 32) := by
      unfold Char.toLower
      rw [if_pos ⟨hc.1, hc.2⟩]
    rw [h1]
    have hb1 := hc.1
    have hb2 := hc.2
    generalize c.toNat = m at hb1 hb2
    interval_cases m <;> decide
  · have h1 : Char.toLower c = c := by
      unfold Char.toLower
      rw [if_neg]
      intro hco
      exact hc ⟨hco.1, hco.2⟩
    rw [h1]
    exact h

/-! ### The string helpers of the registry (src/index.js) -/

/-- Embedding of `_helpers.trim`: `str.replace(/ /g, '-').toLowerCase()` —
every space becomes a hyphen, then the result is lowercased. -/
def trim (str : String) : String :=
  ⟨(str.data.map (fun c => if c = ' ' then '-' else c)).map Char.toLower⟩

/-- Embedding of `_helpers.lowerCase`: `str.toLowerCase()`. -/
def lowerCase (str : String) : String := ⟨str.data.map Char.toLower⟩

/-- Embedding of `_helpers.upperCase`:
`str.charAt(0).toUpperCase() + str.slice(1)`.  On the empty string,
`charAt(0)` is the empty string and `slice(1)` is the empty string, so the
result is the empty string and nothing throws. -/
def upperCase (str : String) : String :=
  ⟨(str.data.take 1).map Char.toUpper ++ str.data.drop 1⟩

/-- Embedding of `_helpers.limit`: if `str.length <= length` the string is
returned unchanged, else `str.substring(0, length) + "..."`. -/
def limit (str : String) (length : Int) : String :=
  if (str.length : Int) ≤ length then str
  else jsSubstring str 0 length ++ "..."

/-- Embedding of `_helpers.secureUrl`: `undefined` is passed through, any
string has its first occurrence of `http://` replaced by `https://`. -/
def secureUrl : Option String → Option String
  | none => none
  | some str => some (replaceFirst str "http://" "https://")

/-! ### Helper lemmas about `limit` -/

lemma limit_of_le (s : String) (n : Int) (h : (s.length : Int) ≤ n) : limit s n = s := by
  simp [limit, h]

lemma limit_of_gt (s : String) (n : Int) (h : n < (s.length : Int)) :
    limit s n = ⟨s.data.take n.toNat⟩ ++ "..." := by
  have hle : ¬ (s.length : Int) ≤ n := by omega
  have hnat : n.toNat ≤ s.length := by omega
  simp only [limit, if_neg hle, jsSubstring]
  have h0 : min (Int.toNat 0) s.length = 0 := by simp
  have hb : min n.toNat s.length = n.toNat := Nat.min_eq_left hnat
  rw [h0, hb]
  simp

/-! ### Helper lemmas about `trim` -/

lemma replChar_ne_space (c : Char) : (if c = ' ' then '-' else c) ≠ ' ' := by
  by_cases h : c = ' '
  · rw [if_pos h]; decide
  · rw [if_neg h]; exact h

lemma map_toLower_idem (l : List Char) :
    (l.map Char.toLower).map Char.toLower = l.map Char.toLower := by
  induction l with
  | nil => rfl
  | cons c cs ih => simp [toLower_toLower, ih]

lemma map_repl_of_no_space (l : List Char) (h : ∀ c ∈ l, c ≠ ' ') :
    l.map (fun c => if c = ' ' then '-' else c) = l := by
  induction l with
  | nil => rfl
  | cons c cs ih =>
    simp only [List.map_cons]
    rw [if_neg (h c (by simp)), ih (fun d hd => h d (by simp [hd]))]

lemma trim_no_space (s : String) : ∀ c ∈ (trim s).data, c ≠ ' ' := by
  intro c hc
  simp only [trim, List.mem_map] at hc
  obtain ⟨b, hb, rfl⟩ := hc
  obtain ⟨a, _, rfl⟩ := hb
  exact toLower_ne_space _ (replChar_ne_space a)

/-! ### Claim theorems for the plain string helpers -/

/-- Claim C4 counterexample: the claim states that every string beginning
with `https://` is returned unchanged by `secureUrl`, but `replace` rewrites
the first occurrence of `http://` anywhere in the string, so a string that
begins with `https://` and contains `http://` later is changed. -/
theorem secureUrl_counterexample :
    secureUrl (some "https://x/http://y") = some "https://x/https://y" ∧
    secureUrl (some "https://x/http://y") ≠ some "https://x/http://y" := by
  constructor
  · rfl
  · decide

/-- Claim C4 (amended): `secureUrl undefined = undefined`; a string beginning
with `http://` has that prefix replaced by `https://`; a string containing no
occurrence of `http://` at all (in particular `"https://x"`) is returned
unchanged.  The original claim's clause that every string beginning with
`https://` is unchanged holds only in the absence of a later `http://`
occurrence, as the counterexample shows. -/
theorem secureUrl_spec :
    secureUrl none = none ∧
    (∀ s : String, secureUrl (some ("http://" ++ s)) = some ("https://" ++ s)) ∧
    (∀ s : String, containsSub s "http://" = false → secureUrl (some s) = some s) ∧
    secureUrl (some "https://x") = some "https://x" := by
  refine ⟨rfl, ?_, ?_, by decide⟩
  · intro s
    show some (replaceFirst ("http://" ++ s) "http://" "https://") = _
    unfold replaceFirst
    rw [String.data_append, replaceFirstL_at_head]
    rfl
  · intro s h
    show some (replaceFirst s "http://" "https://") = some s
    unfold replaceFirst
    unfold containsSub at h
    rw [replaceFirstL_of_not_contains _ _ _ h]

/-- Claim C4 witness. -/
theorem secureUrl_spec_witness :
    secureUrl (some "https://example.org") = some "https://example.org" :=
  secureUrl_spec.2.2.1 "https://example.org" (by decide)

/-- Claim C5: if `len(s) <= n` then `limit s n = s` (in particular the
boundary case `len(s) = n` returns `s` unchanged); otherwise `limit s n` is
the first `n` characters of `s` followed by `"..."`. -/
theorem limit_spec : ∀ (s : String) (n : Int),
    ((s.length : Int) ≤ n → limit s n = s) ∧
    (n < (s.length : Int) → limit s n = ⟨s.data.take n.toNat⟩ ++ "...") :=
  fun s n => ⟨limit_of_le s n, limit_of_gt s n⟩

/-- Claim C5 witness. -/
theorem limit_spec_witness :
    limit "Elvis Costello" 5 = "Elvis..." ∧ limit "abc" 3 = "abc" := by
  constructor
  · have e := (limit_spec "Elvis Costello" 5).2 (by decide)
    rw [e]; rfl
  · exact (limit_spec "abc" 3).1 (by decide)

/-- Claim C10: `limit` is idempotent at a fixed non-negative length: for
every string `s` and every `n : Nat`, `limit (limit s n) n = limit s n`; an
already-truncated string (which gained the `"..."` suffix) has length
`n + 3 > n`, and truncating it again cuts exactly at the old cut point. -/
theorem limit_idempotent (s : String) (n : Nat) :
    limit (limit s (n : Int)) (n : Int) = limit s (n : Int) := by
  by_cases h : (s.length : Int) ≤ (n : Int)
  · rw [limit_of_le s _ h, limit_of_le s _ h]
  · have hgt : (n : Int) < (s.length : Int) := by omega
    have hn : n < s.length := by exact_mod_cast hgt
    have e1 := limit_of_gt s (n : Int) hgt
    simp only [Int.toNat_natCast] at e1
    rw [e1]
    have hlen : ((⟨s.data.take n⟩ ++ ("..." : String) : String).length) = n + 3 := by
      show (s.data.take n ++ ("..." : String).data).length = n + 3
      rw [List.length_append, List.length_take]
      simp
      omega
    have hgt2 : (n : Int) < (((⟨s.data.take n⟩ ++ ("..." : String) : String).length : Nat) : Int) := by
      rw [hlen]; omega
    have e2 := limit_of_gt (⟨s.data.take n⟩ ++ ("..." : String)) (n : Int) hgt2
    simp only [Int.toNat_natCast] at e2
    rw [e2]
    have hdata : ((⟨s.data.take n⟩ ++ ("..." : String) : String)).data
        = s.data.take n ++ ("..." : String).data := by
      rw [String.data_append]
    rw [hdata]
    have htake : (s.data.take n ++ ("..." : String).data).take n = s.data.take n :=
      List.take_left' (by
        rw [List.length_take]
        have hsd : s.length = s.data.length := rfl
        omega)
    rw [htake]

/-- Claim C6: `trim` output contains no space character, is fully lowercase
(applying the registry's own `lowerCase` helper changes nothing), and `trim`
is idempotent. -/
theorem trim_spec (s : String) :
    (∀ c ∈ (trim s).data, c ≠ ' ') ∧ lowerCase (trim s) = trim s ∧ trim (trim s) = trim s := by
  refine ⟨trim_no_space s, ?_, ?_⟩
  · show (⟨(trim s).data.map Char.toLower⟩ : String) = trim s
    show (⟨((s.data.map (fun c => if c = ' ' then '-' else c)).map Char.toLower).map Char.toLower⟩ : String) = trim s
    rw [map_toLower_idem]
    rfl
  · show (⟨((trim s).data.map (fun c => if c = ' ' then '-' else c)).map Char.toLower⟩ : String) = trim s
    rw [map_repl_of_no_space _ (trim_no_space s)]
    show (⟨((s.data.map (fun c => if c = ' ' then '-' else c)).map Char.toLower).map Char.toLower⟩ : String) = trim s
    rw [map_toLower_idem]
    rfl

/-- Claim C6 witness. -/
theorem trim_spec_witness :
    ('-' ∈ (trim "A B").data) ∧ ('-' : Char) ≠ ' ' ∧ trim (trim "A B") = trim "A B" := by
  refine ⟨by decide, (trim_spec "A B").1 '-' (by decide), (trim_spec "A B").2.2⟩

/-- Claim C9: `upperCase` on the empty string returns the empty string
without error (JS `charAt(0)` on the empty string is the empty string, so
nothing throws), and on a non-empty string it uppercases the first character
and leaves the rest unchanged. -/
theorem upperCase_spec :
    upperCase "" = "" ∧
    ∀ (c : Char) (cs : List Char), upperCase ⟨c :: cs⟩ = ⟨Char.toUpper c :: cs⟩ := by
  refine ⟨rfl, ?_⟩
  intro c cs
  simp [upperCase]

/-! ### JS values and loose equality (the fragment used by ifeq / ifnoteq) -/

/-- Parse of a non-empty all-digit character list to a natural number, as JS
ToNumber does for plain decimal integer literals; anything else is NaN
(modelled as `none`). -/
def parseDigits (l : List Char) : Option Nat :=
  if l ≠ [] ∧ l.all (fun c => c.isDigit) then
    some (l.foldl (fun acc c => acc * 10 + (c.toNat - 48)) 0)
  else none

/-- Model of JS ToNumber on strings, restricted to the integer fragment:
surrounding spaces are trimmed, the empty string is 0, an optional sign
followed by decimal digits is parsed, anything else is NaN (`none`). -/
def strToNumber (s : String) : Option Int :=
  let t := ((s.data.dropWhile (fun c => c = ' ')).reverse.dropWhile (fun c => c = ' ')).reverse
  match t with
  | [] => some 0
  | c :: cs =>
    if c = '-' then (parseDigits cs).map (fun m => -(m : Int))
    else if c = '+' then (parseDigits cs).map (fun m => (m : Int))
    else (parseDigits (c :: cs)).map (fun m => (m : Int))

/-- Fragment of the JS value universe passed to template helpers: undefined,
null, booleans, numbers (NaN as `none`) and strings. -/
inductive JSVal where
  | undef : JSVal
  | null : JSVal
  | boolean : Bool → JSVal
  | number : Option Int → JSVal
  | string : String → JSVal
  deriving DecidableEq

/-- NaN-aware numeric equality: NaN (`none`) compares unequal to everything,
including itself. -/
def numEq : Option Int → Option Int → Bool
  | some a, some b => a == b
  | _, _ => false

/-- JS ToNumber of a boolean. -/
def bnum (b : Bool) : Int := if b then 1 else 0

/-- JS abstract (loose, ==) equality on the modelled fragment, following
ECMA-262 7.2.15: same-type comparisons are strict; null == undefined; a
number and a string are compared after ToNumber of the string; a boolean is
converted to a number first; every remaining mixed pair is unequal. -/
def looseEq : JSVal → JSVal → Bool
  | .undef, .undef => true
  | .undef, .null => true
  | .null, .undef => true
  | .null, .null => true
  | .number x, .number y => numEq x y
  | .string s, .string t => s == t
  | .boolean a, .boolean b => a == b
  | .number x, .string s => numEq x (strToNumber s)
  | .string s, .number y => numEq (strToNumber s) y
  | .boolean a, .number y => numEq (some (bnum a)) y
  | .number x, .boolean b => numEq x (some (bnum b))
  | .boolean a, .string s => numEq (some (bnum a)) (strToNumber s)
  | .string s, .boolean b => numEq (strToNumber s) (some (bnum b))
  | _, _ => false

/-- Block-helper options: the rendered results of the fn (then) and inverse
(else) continuations. -/
structure BlockOpts where
  fn : String
  inverse : String

/-- Embedding of `_helpers.ifeq`: renders fn when a == b (loose equality),
else inverse. -/
def ifeq (a b : JSVal) (options : BlockOpts) : String :=
  if looseEq a b then options.fn else options.inverse

/-- Embedding of `_helpers.ifnoteq`: renders fn when a != b (JS != is the
exact negation of loose equality), else inverse. -/
def ifnoteq (a b : JSVal) (options : BlockOpts) : String :=
  if !(looseEq a b) then options.fn else options.inverse

/-- Claim C7: `ifeq` returns the fn result exactly when its arguments are
loosely equal and the inverse result otherwise; `ifeq` on number 1 and
string "1" renders fn (coercive comparison); and `ifnoteq` renders the
opposite branch of `ifeq` on every input. -/
theorem ifeq_spec :
    (∀ a b o, looseEq a b = true → ifeq a b o = o.fn) ∧
    (∀ a b o, looseEq a b = false → ifeq a b o = o.inverse) ∧
    (∀ o, ifeq (.number (some 1)) (.string "1") o = o.fn) ∧
    (∀ a b o, ifnoteq a b o = ifeq a b ⟨o.inverse, o.fn⟩) := by
  refine ⟨?_, ?_, ?_, ?_⟩
  · intro a b o h; simp [ifeq, h]
  · intro a b o h; simp [ifeq, h]
  · intro o
    have h : looseEq (.number (some 1)) (.string "1") = true := by decide
    simp [ifeq, h]
  · intro a b o
    cases hl : looseEq a b <;> simp [ifeq, ifnoteq, hl]

/-- Claim C7 witness. -/
theorem ifeq_spec_witness :
    ifeq (.number (some 2)) (.string "2") ⟨"T", "F"⟩ = "T" ∧
    ifeq (.string "a") (.string "b") ⟨"T", "F"⟩ = "F" :=
  ⟨ifeq_spec.1 _ _ _ (by decide), ifeq_spec.2.1 _ _ _ (by decide)⟩

/-! ### fileType -/

/-- Descriptor passed to the `fileType` helper: only the filetype MIME
string field is read (`none` models a missing field, i.e. undefined). -/
structure FileDescr where
  filetype : Option String
  deriving DecidableEq

/-- The fixed application/* subtype-to-icon table of `fileType`. -/
def cssTypesApp : List (String × String) :=
  [("pdf", "pdf"), ("zip", "zip"), ("ogg", "audio"),
   ("vnd.openxmlformats-officedocument.wordprocessingml.document", "word"),
   ("vnd.openxmlformats-officedocument.presentationml.presentation", "powerpoint"),
   ("vnd.openxmlformats-officedocument.spreadsheetml.sheet", "excel")]

/-- Embedding of `_helpers.fileType`: a missing MIME string gives "file";
otherwise the string is tested for the substrings "audio/", "video/",
"image/" (JS indexOf compared with -1, in that order); otherwise the first
occurrence of "application/" is removed and the result matched against the
table keys by iterating over them (Object.keys(...).forEach); a hit is
suffixed "-o", a miss gives "file". -/
def fileType (file : FileDescr) : String :=
  match file.filetype with
  | none => "file"
  | some ft =>
    let cssType : Option String :=
      if containsSub ft "audio/" then some "audio"
      else if containsSub ft "video/" then some "video"
      else if containsSub ft "image/" then some "image"
      else
        let mimeType := replaceFirst ft "application/" ""
        cssTypesApp.foldl (fun acc tv => if tv.1 = mimeType then some tv.2 else acc) none
    match cssType with
    | some c => c ++ "-o"
    | none => "file"

lemma foldl_table_eq_lookup (m : String) :
    cssTypesApp.foldl (fun acc tv => if tv.1 = m then some tv.2 else acc) none
      = cssTypesApp.lookup m := by
  by_cases h1 : m = "pdf"
  · subst h1; rfl
  · by_cases h2 : m = "zip"
    · subst h2; rfl
    · by_cases h3 : m = "ogg"
      · subst h3; rfl
      · by_cases h4 : m = "vnd.openxmlformats-officedocument.wordprocessingml.document"
        · subst h4; rfl
        · by_cases h5 : m = "vnd.openxmlformats-officedocument.presentationml.presentation"
          · subst h5; rfl
          · by_cases h6 : m = "vnd.openxmlformats-officedocument.spreadsheetml.sheet"
            · subst h6; rfl
            · have g1 : ¬ ("pdf" = m) := fun e => h1 e.symm
              have g2 : ¬ ("zip" = m) := fun e => h2 e.symm
              have g3 : ¬ ("ogg" = m) := fun e => h3 e.symm
              have g4 : ¬ ("vnd.openxmlformats-officedocument.wordprocessingml.document" = m) :=
                fun e => h4 e.symm
              have g5 : ¬ ("vnd.openxmlformats-officedocument.presentationml.presentation" = m) :=
                fun e => h5 e.symm
              have g6 : ¬ ("vnd.openxmlformats-officedocument.spreadsheetml.sheet" = m) :=
                fun e => h6 e.symm
              have b1 : (m == "pdf") = false := beq_eq_false_iff_ne.mpr h1
              have b2 : (m == "zip") = false := beq_eq_false_iff_ne.mpr h2
              have b3 : (m == "ogg") = false := beq_eq_false_iff_ne.mpr h3
              have b4 : (m == "vnd.openxmlformats-officedocument.wordprocessingml.document")
                  = false := beq_eq_false_iff_ne.mpr h4
              have b5 : (m == "vnd.openxmlformats-officedocument.presentationml.presentation")
                  = false := beq_eq_false_iff_ne.mpr h5
              have b6 : (m == "vnd.openxmlformats-officedocument.spreadsheetml.sheet")
                  = false := beq_eq_false_iff_ne.mpr h6
              simp [cssTypesApp, List.lookup, List.foldl,
                g1, g2, g3, g4, g5, g6, b1, b2, b3, b4, b5, b6]

/-- Claim C2 counterexample: the claim classifies by MIME top-level type and
predicts "file" for application/x-audio/test (its top-level type is
application and x-audio/test is not a table key), but the code tests
substring containment with indexOf, so the embedded "audio/" fires and the
helper returns "audio-o". -/
theorem fileType_counterexample :
    fileType ⟨some "application/x-audio/test"⟩ = "audio-o" ∧
    fileType ⟨some "application/x-audio/test"⟩ ≠ "file" := by
  constructor
  · rfl
  · decide

/-- Claim C2 (amended): a descriptor without a filetype yields "file"; a
MIME string containing "audio/" anywhere yields "audio-o", else one
containing "video/" yields "video-o", else one containing "image/" yields
"image-o" (containment, not top-level type, in that order); any other
string has its first "application/" occurrence stripped and is looked up in
the fixed table, a hit mapped to its icon name suffixed "-o" (so
application/pdf gives "pdf-o") and a miss giving "file". -/
theorem fileType_spec :
    fileType ⟨none⟩ = "file" ∧
    (∀ ft, containsSub ft "audio/" = true → fileType ⟨some ft⟩ = "audio-o") ∧
    (∀ ft, containsSub ft "audio/" = false → containsSub ft "video/" = true →
      fileType ⟨some ft⟩ = "video-o") ∧
    (∀ ft, containsSub ft "audio/" = false → containsSub ft "video/" = false →
      containsSub ft "image/" = true → fileType ⟨some ft⟩ = "image-o") ∧
    (∀ ft, containsSub ft "audio/" = false → containsSub ft "video/" = false →
      containsSub ft "image/" = false →
      fileType ⟨some ft⟩ =
        match cssTypesApp.lookup (replaceFirst ft "application/" "") with
        | some v => v ++ "-o"
        | none => "file") := by
  refine ⟨rfl, ?_, ?_, ?_, ?_⟩
  · intro ft h; simp [fileType, h]
  · intro ft h1 h2; simp [fileType, h1, h2]
  · intro ft h1 h2 h3; simp [fileType, h1, h2, h3]
  · intro ft h1 h2 h3
    simp only [fileType, h1, h2, h3, Bool.false_eq_true, if_false]
    rw [foldl_table_eq_lookup]

/-- Claim C2 witness. -/
theorem fileType_spec_witness :
    fileType ⟨some "audio/mpeg"⟩ = "audio-o" ∧ fileType ⟨some "application/pdf"⟩ = "pdf-o" := by
  constructor
  · exact fileType_spec.2.1 "audio/mpeg" (by decide)
  · have e := fileType_spec.2.2.2.2 "application/pdf" (by decide) (by decide) (by decide)
    rw [e]
    rfl

/-! ### cdnAsset -/

/-- Options record passed to the external cloudinary URL builder by
`cdnAsset`: a resource type and the secure flag. -/
structure CloudOpts where
  resource_type : String
  secure : Bool
  deriving DecidableEq

/-- Keyword hash of the `cdnAsset` helper; every field may be absent. -/
structure CdnHash where
  product : Option String
  env : Option String
  path : Option String
  type : Option String
  fetch : Option String
  deriving DecidableEq

/-- Embedding of `_helpers.cdnAsset`.  `u` is the external cloudinary.url
collaborator and `r` the integer drawn from the random-number source
(min 1000, max 100000000).  A falsy env falls back to "production"; the
resource type is fetch when truthy, else "raw".  With a truthy path the
public id is product/path.type (undefined parts joining as empty strings);
otherwise it is product/env.type and the first occurrence of "v1" in the
built URL is replaced by "v" followed by the random number, flushing the
CDN cache. -/
def cdnAsset (u : String → CloudOpts → String) (r : Nat) (h : CdnHash) : String :=
  let env := if truthy h.env then optStr h.env else "production"
  let rtype := if truthy h.fetch then optStr h.fetch else "raw"
  if truthy h.path then
    let publicId := optStr h.product ++ "/" ++ optStr h.path ++ "." ++ optStr h.type
    u publicId ⟨rtype, true⟩
  else
    let publicId := optStr h.product ++ "/" ++ env ++ "." ++ optStr h.type
    replaceFirst (u publicId ⟨rtype, true⟩) "v1" ("v" ++ toString r)

/-- Claim C3: env defaults to "production" and the resource type defaults to
"raw"; with a path the asset id is product/path.type and no random version
is substituted (the built URL is returned as-is); without a path the id is
product/env.type and the substring "v1" of the URL becomes "v" followed by
the random integer drawn from 1000..100000000. -/
theorem cdnAsset_spec :
    ∀ (u : String → CloudOpts → String) (r : Nat) (h : CdnHash),
    (h.env = none → cdnAsset u r h = cdnAsset u r { h with env := some "production" }) ∧
    (h.fetch = none → cdnAsset u r h = cdnAsset u r { h with fetch := some "raw" }) ∧
    (∀ p, h.path = some p → p ≠ "" →
      cdnAsset u r h =
        u (optStr h.product ++ "/" ++ p ++ "." ++ optStr h.type)
          ⟨if truthy h.fetch then optStr h.fetch else "raw", true⟩) ∧
    (h.path = none → 1000 ≤ r → r ≤ 100000000 →
      cdnAsset u r h =
        replaceFirst
          (u (optStr h.product ++ "/" ++ (if truthy h.env then optStr h.env else "production")
              ++ "." ++ optStr h.type)
            ⟨if truthy h.fetch then optStr h.fetch else "raw", true⟩)
          "v1" ("v" ++ toString r)) := by
  intro u r h
  refine ⟨?_, ?_, ?_, ?_⟩
  · intro he
    simp [cdnAsset, he, truthy, optStr]
  · intro hf
    simp [cdnAsset, hf, truthy, optStr]
  · intro p hp hpne
    have ht2 : truthy (some p) = true := by simp [truthy, hpne]
    simp [cdnAsset, hp, ht2, optStr]
  · intro hp _ _
    have ht : truthy h.path = false := by rw [hp]; rfl
    simp [cdnAsset, ht]

/-- Sample URL builder standing in for the cloudinary collaborator in
witnesses: the secure flag chooses the scheme, and the URL carries the "v1"
version segment that `cdnAsset` rewrites. -/
def sampleUrl (s : String) (o : CloudOpts) : String :=
  (if o.secure then "https://" else "http://") ++ "res.cloudinary.com/demo/"
    ++ o.resource_type ++ "/upload/v1/" ++ s

/-- Claim C3 witness. -/
theorem cdnAsset_spec_witness :
    cdnAsset sampleUrl 5000 ⟨some "site", none, none, some "js", none⟩
      = "https://res.cloudinary.com/demo/raw/upload/v5000/site/production.js" := by
  have e := (cdnAsset_spec sampleUrl 5000 ⟨some "site", none, none, some "js", none⟩).2.2.2
    rfl (by norm_num) (by norm_num)
  rw [e]
  rfl

/-! ### cloudinaryUrl -/

/-- The keyword hash handed to `cloudinaryUrl`: the format and fetch_format
entries the helper reads and writes, plus the remaining keyword options
carried through untouched. -/
structure CloudHash where
  format : Option String
  fetch_format : Option String
  rest : List (String × String)
  deriving DecidableEq

/-- Context argument of `cloudinaryUrl`: an image descriptor (with public_id
and format fields) or a plain string asset id. -/
inductive CloudCtx where
  | desc (public_id : Option String) (format : Option String) : CloudCtx
  | strCtx (s : String) : CloudCtx
  deriving DecidableEq

/-- Embedding of `_helpers.cloudinaryUrl`.  `u` models cloudinary.url and
`ib` models cloudinary.image.  The JS statement assigning "auto" to the
fetch_format entry of options.hash (performed whenever the format entry is
not strictly equal to "svg") mutates the caller record, so the embedding
returns the post-call hash as the second component.  A descriptor context
with truthy public_id builds public_id + "." + format (an undefined format
is stringified to "undefined" by concat); a string context is passed to
cloudinary.image; both results have their first occurrence of "http"
replaced by "https"; any other context falls through and yields undefined
(`none`). -/
def cloudinaryUrl (u ib : String → CloudHash → String) (context : CloudCtx) (h : CloudHash) :
    Option String × CloudHash :=
  let h2 := if h.format ≠ some "svg" then { h with fetch_format := some "auto" } else h
  match context with
  | .desc pid fmt =>
    if truthy pid then
      let imageName := optStr pid ++ "." ++ (match fmt with | some f => f | none => "undefined")
      (some (replaceFirst (u imageName h2) "http" "https"), h2)
    else (none, h2)
  | .strCtx s => (some (replaceFirst (ib s h2) "http" "https"), h2)

/-- Claim C1 counterexample: invoking a registry helper does not always
leave its arguments unchanged — `cloudinaryUrl` on a hash with no format
entry sets the fetch_format field of the caller hash to "auto", so the
post-call hash differs from the pre-call hash. -/
theorem cloudinaryUrl_counterexample :
    (cloudinaryUrl (fun imageName _ => imageName) (fun s _ => s) (.strCtx "pic")
        ⟨none, none, []⟩).2 ≠ (⟨none, none, []⟩ : CloudHash) := by
  decide

/-- Claim C1 (amended): the helpers are pure value transforms except that
`cloudinaryUrl` writes to its options.hash argument: after any invocation
the hash has its fetch_format field set to "auto" unless its format entry is
"svg", in which case the hash is exactly as before the call; no other hash
field changes. -/
theorem cloudinaryUrl_hash_effect (u ib : String → CloudHash → String)
    (context : CloudCtx) (h : CloudHash) :
    (cloudinaryUrl u ib context h).2 =
      if h.format = some "svg" then h else { h with fetch_format := some "auto" } := by
  cases context with
  | desc pid fmt =>
    by_cases hp : truthy pid = true
    · by_cases hf : h.format = some "svg" <;> simp [cloudinaryUrl, hp, hf]
    · by_cases hf : h.format = some "svg" <;> simp [cloudinaryUrl, hp, hf]
  | strCtx s =>
    by_cases hf : h.format = some "svg" <;> simp [cloudinaryUrl, hf]

/-! ### escapeExpression and the img helper -/

/-- The handlebars v4 escapeExpression character map: ampersand, the angle
brackets, the double quote (codepoint 34), the single quote (codepoint 39),
the backtick (codepoint 96) and the equals sign become HTML entities; every
other character is kept. -/
def escChar (c : Char) : List Char :=
  if c = '&' then "&amp;".data
  else if c = '<' then "&lt;".data
  else if c = '>' then "&gt;".data
  else if c.toNat = 34 then "&quot;".data
  else if c.toNat = 39 then "&#x27;".data
  else if c.toNat = 96 then "&#x60;".data
  else if c = '=' then "&#x3D;".data
  else [c]

/-- Model of handlebars escapeExpression; an undefined input renders as the
empty string. -/
def escapeExpression (s : Option String) : String := ⟨(optStr s).data.flatMap escChar⟩

/-- The single-quote character (codepoint 39) as a string, used to build the
img markup without quoting issues. -/
def sq : String := ⟨[Char.ofNat 39]⟩

/-- Image descriptor read by the `img` helper. -/
structure ImageDescr where
  filename : Option String
  path : Option String
  deriving DecidableEq

/-- Result of the `img` helper.  `thrown` models the branch that returns
hbs.SafeString applied to the empty string: SafeString is a constructor
function invoked there without the new keyword, so in the strict-mode
handlebars v4 builds its body (assigning to a field of this, with this
undefined) raises a TypeError instead of producing an empty safe string.
The second return site does use new hbs.SafeString, constructing a safe
string. -/
inductive ImgResult where
  | thrown : ImgResult
  | safe : String → ImgResult
  deriving DecidableEq

/-- Embedding of `_helpers.img`: a descriptor whose filename is null or
undefined hits the un-newed SafeString call; otherwise the escaped path has
its first "./public/" occurrence removed and safe img markup is built. -/
def img (image : ImageDescr) : ImgResult :=
  match image.filename with
  | none => ImgResult.thrown
  | some fn =>
    let path := replaceFirst (escapeExpression image.path) "./public/" ""
    let filename := escapeExpression (some fn)
    ImgResult.safe ("<img src=" ++ sq ++ path ++ "/" ++ filename ++ sq
      ++ " alt=" ++ sq ++ filename ++ sq ++ ">")

/-- Claim C8 (code bug): on a descriptor without filename the helper does
not return empty safe markup — the SafeString call without new throws —
while with a filename it does return safe img markup whose src strips the
"./public/" prefix from the path. -/
theorem img_spec :
    img ⟨none, some "./public/images"⟩ = ImgResult.thrown ∧
    img ⟨some "a.png", some "./public/images"⟩
      = ImgResult.safe ("<img src=" ++ sq ++ "images/a.png" ++ sq
          ++ " alt=" ++ sq ++ "a.png" ++ sq ++ ">") := by
  constructor
  · rfl
  · rfl

end ElHbs
